import Mathlib

/-!
Verification development for the Voxel Collider Generator
(`Blender Collider Utilities/voxel_collider_generator.py`).

The Python source is shallowly embedded here:

* geometry is modelled over `ℚ` (the Python code computes with floats; we
  model the arithmetic exactly, which is the standard idealisation);
* the Blender host API surface that the operator touches is modelled as
  explicit data: the active object (type tag, bound box corners, world
  matrix, mesh data), the scene property bag, and the observable effects
  of a run (status, report calls, collection creation, created primitives).

Every definition mirrors a specific place in the source file; the doc
comment of each definition names the Python symbol it embeds.
-/

/-- Embeds `mathutils.Vector` 3-component vectors (used throughout the
source for corners, centers and directions).  Components are rationals. -/
structure Vec3 where
  x : ℚ
  y : ℚ
  z : ℚ
deriving DecidableEq, Repr

instance : Add Vec3 where
  add a b := ⟨a.x + b.x, a.y + b.y, a.z + b.z⟩

instance : Sub Vec3 where
  sub a b := ⟨a.x - b.x, a.y - b.y, a.z - b.z⟩

/-- Scalar multiplication `Vector * float` as used in
`Vector(idx) * voxel_size` and `Vector((0.5, 0.5, 0.5)) * voxel_size`. -/
instance : HMul Vec3 ℚ Vec3 where
  hMul v s := ⟨v.x * s, v.y * s, v.z * s⟩

/-- Embeds `mathutils.Vector.dot`. -/
def Vec3.dot (a b : Vec3) : ℚ :=
  a.x * b.x + a.y * b.y + a.z * b.z

/-- Componentwise minimum of two vectors; building block of
`Vector(map(min, zip(*bounds)))` (source line 92). -/
def Vec3.cmin (a b : Vec3) : Vec3 :=
  ⟨min a.x b.x, min a.y b.y, min a.z b.z⟩

/-- Componentwise maximum of two vectors; building block of
`Vector(map(max, zip(*bounds)))` (source line 93). -/
def Vec3.cmax (a b : Vec3) : Vec3 :=
  ⟨max a.x b.x, max a.y b.y, max a.z b.z⟩

/-- Embeds `min_corner = Vector(map(min, zip(*bounds)))`: the componentwise
minimum of a list of corner vectors.  Blender's `bound_box` always has 8
corners, so the list is never empty in a run; the `[]` case is an arbitrary
(unreachable) default. -/
def minCorner : List Vec3 → Vec3
  | [] => ⟨0, 0, 0⟩
  | v :: vs => vs.foldl Vec3.cmin v

/-- Embeds `max_corner = Vector(map(max, zip(*bounds)))`. -/
def maxCorner : List Vec3 → Vec3
  | [] => ⟨0, 0, 0⟩
  | v :: vs => vs.foldl Vec3.cmax v

/-- Embeds Blender's `obj.matrix_world`: an affine transform given by the
three rows of its linear part and a translation column, applied to a
`Vector` exactly as `world_matrix @ v` is in the source. -/
structure WorldMatrix where
  rx : Vec3
  ry : Vec3
  rz : Vec3
  t : Vec3
deriving DecidableEq, Repr

/-- Application `world_matrix @ v` (used for the bound-box corners, source
line 91, and for `bm.transform(world_matrix)`, source line 107). -/
def WorldMatrix.apply (m : WorldMatrix) (v : Vec3) : Vec3 :=
  ⟨Vec3.dot m.rx v + m.t.x, Vec3.dot m.ry v + m.t.y, Vec3.dot m.rz v + m.t.z⟩

/-- Grid indices.  `numpy` enumeration yields nonnegative index tuples, but
`VoxelGrid.mark` / `VoxelGrid.is_marked` accept arbitrary integer tuples
(Python ints), so indices are triples of integers. -/
abbrev Idx := ℤ × ℤ × ℤ

/-- Embeds the membership test
`all(0 <= idx < dim for idx, dim in zip(index, self.grid_size))`
shared by `VoxelGrid.mark` (line 60) and `VoxelGrid.is_marked` (line 64). -/
def idxInRange (gs : ℤ × ℤ × ℤ) (i : Idx) : Bool :=
  decide (0 ≤ i.1 ∧ i.1 < gs.1) &&
    decide (0 ≤ i.2.1 ∧ i.2.1 < gs.2.1) &&
    decide (0 ≤ i.2.2 ∧ i.2.2 < gs.2.2)

/-- Row-major (C-order) enumeration of all valid indices of a grid of shape
`gs`, first axis slowest and last axis fastest: the order in which
`np.ndenumerate` visits a `numpy` array of that shape (used by
`VoxelGrid.iter_empty`, line 69, and by the emission loop, line 127).
A nonpositive dimension yields no indices, matching `np.zeros`. -/
def allIndices (gs : ℤ × ℤ × ℤ) : List Idx :=
  ((List.range gs.1.toNat).map Int.ofNat).flatMap fun a =>
    ((List.range gs.2.1.toNat).map Int.ofNat).flatMap fun b =>
      ((List.range gs.2.2.toNat).map Int.ofNat).map fun c => (a, b, c)

/-- Embeds the `VoxelGrid` class (source lines 46-71).  `dims` and
`grid_size` are computed in `__init__` from the three stored parameters,
which are never mutated afterwards, so they are modelled as derived
functions below.  `grid` embeds the boolean occupancy array
`np.zeros(self.grid_size, dtype=bool)` as a function from index triples to
`Bool` (queries outside the allocated shape never reach the array: both
accessors guard with `idxInRange`). -/
structure VoxelGrid where
  min_corner : Vec3
  max_corner : Vec3
  voxel_size : ℚ
  grid : Idx → Bool

/-- Embeds `self.dims = max_corner - min_corner` (line 51). -/
def VoxelGrid.dims (g : VoxelGrid) : Vec3 :=
  g.max_corner - g.min_corner

/-- Embeds
`self.grid_size = [ceil(self.dims[i] / voxel_size) for i in range(3)]`
(line 52). -/
def VoxelGrid.grid_size (g : VoxelGrid) : ℤ × ℤ × ℤ :=
  (⌈g.dims.x / g.voxel_size⌉, ⌈g.dims.y / g.voxel_size⌉, ⌈g.dims.z / g.voxel_size⌉)

/-- Embeds `VoxelGrid.__init__` (lines 47-53): stores the corners and voxel
size and allocates the all-false occupancy array. -/
def VoxelGrid.init (min_corner max_corner : Vec3) (voxel_size : ℚ) : VoxelGrid :=
  ⟨min_corner, max_corner, voxel_size, fun _ => false⟩

/-- Embeds `VoxelGrid.mark` (lines 59-61): sets the cell iff the index is
in range, otherwise silently does nothing. -/
def VoxelGrid.mark (g : VoxelGrid) (i : Idx) : VoxelGrid :=
  if idxInRange g.grid_size i then
    { g with grid := Function.update g.grid i true }
  else g

/-- Embeds `VoxelGrid.is_marked` (lines 63-66): the stored cell value for
an in-range index, and `True` for any out-of-range index. -/
def VoxelGrid.is_marked (g : VoxelGrid) (i : Idx) : Bool :=
  if idxInRange g.grid_size i then g.grid i else true

/-- Embeds `VoxelGrid.iter_empty` (lines 68-71): enumerates, in
`np.ndenumerate` row-major order, the indices whose cell is currently
false.  The Python generator is reconstructed from scratch at each call,
so one call is modelled as the full (finite) sequence it yields when the
grid is not mutated while iterating; the classification sweep, which does
mutate while iterating, is modelled separately by `sweep` below with the
generator's live-read semantics. -/
def VoxelGrid.iter_empty (g : VoxelGrid) : List Idx :=
  (allIndices g.grid_size).filter fun i => !(g.grid i)

/-- Embeds the `VCG_Props` property group (source lines 20-44): the per-run
configuration bag read from `context.scene.vcg_props`. -/
structure Props where
  voxel_size : ℚ
  use_boxes : Bool
  use_spheres : Bool
  use_capsules : Bool
  merge_output : Bool
  voxel_resolution : ℤ
deriving DecidableEq, Repr

/-- Blender object type tag; the operator only distinguishes `'MESH'` from
everything else (`obj.type != 'MESH'`, source line 81). -/
inductive ObjType where
  | MESH
  | OTHER
deriving DecidableEq, Repr

/-- An edge of the mesh: its two vertex positions.  `bmesh` edge order and
vertex data come straight from `mesh.edges`. -/
abbrev MeshEdge := Vec3 × Vec3

/-- Embeds the part of Blender mesh data (`obj.data`) the operator can
observe: the polygon count (the source never reads it, but the spec's
preconditions mention it) and the edge list consumed by the classifier via
`bm.from_mesh(mesh)` / `bm.edges`. -/
structure MeshData where
  polygons : ℕ
  edges : List MeshEdge
deriving DecidableEq, Repr

/-- Embeds the selected object `context.active_object`: its type tag, its
local-space `bound_box` corner list (8 corners in Blender), its
`matrix_world`, and its mesh data. -/
structure Obj where
  type : ObjType
  bound_box : List Vec3
  world_matrix : WorldMatrix
  data : MeshData
deriving DecidableEq, Repr

/-- Embeds the scene state the operator reads: the property bag
`context.scene.vcg_props` and whether the collection named
`"VCG_Colliders"` already exists (`bpy.data.collections.get`, line 100). -/
structure Scene where
  props : Props
  vcgCollidersExists : Bool

/-- Report levels used by `self.report` in the operator. -/
inductive ReportLevel where
  | INFO
  | ERROR
deriving DecidableEq, Repr

/-- Operator return statuses: `{'FINISHED'}` / `{'CANCELLED'}`. -/
inductive ExecStatus where
  | FINISHED
  | CANCELLED
deriving DecidableEq, Repr

/-- Shape tag of an emitted collision primitive.  The source only ever
creates boxes (`bpy.ops.mesh.primitive_cube_add`, line 134); the sphere and
capsule tags exist so that the absence of such emissions is expressible. -/
inductive Shape where
  | box
  | sphere
  | capsule
deriving DecidableEq, Repr

/-- One primitive-creation request made to the host: shape, edge length
(`size=voxel_size`), world-space center (`location=center`) and the name
assigned right after creation (`cube.name = f"VCG_Cube_{idx}"`).  The cube
is created with no rotation argument, i.e. axis-aligned to world axes; the
pose therefore carries an implicit identity orientation and only the
center is recorded. -/
structure Primitive where
  shape : Shape
  size : ℚ
  location : Vec3
  name : String
deriving DecidableEq, Repr

/-- The observable outcome of one `VCG_OT_Generate.execute` run: the
returned status, the sequence of `self.report` calls, whether a new
`"VCG_Colliders"` collection was created, the voxel grid allocated by the
run (none when the run aborts before allocation), the primitive-creation
requests in order, and the number of merged-mesh creation requests (the
source contains no code path that creates one). -/
structure ExecResult where
  status : ExecStatus
  reports : List (ReportLevel × String)
  createdCollection : Bool
  grid : Option VoxelGrid
  primitives : List Primitive
  mergedMeshCount : ℕ

/-- Embeds `edge.calc_center_median()`: the midpoint of the edge's two
vertices. -/
def edgeCenter (e : MeshEdge) : Vec3 :=
  (e.1 + e.2) * (1 / 2 : ℚ)

/-- The unnormalised ray direction `Vector((1, 0.1, 0.3))` of source
line 114; its norm is `√(11/10)`. -/
def rayDirRaw : Vec3 :=
  ⟨1, 1 / 10, 3 / 10⟩

/-- Embeds the per-edge test of source lines 116-118:
`hit = edge.calc_center_median().dot(direction - center); hit > 0`, where
`direction = Vector((1, 0.1, 0.3)).normalized()`.  Writing `q = e·(1, 0.1, 0.3)`
and `s = e·center`, the tested quantity is `q/√(11/10) - s`, so `hit > 0`
iff `q > s·√(11/10)`; this definition decides that inequality exactly over
`ℚ` by sign analysis and squaring (see `hitTest_iff_real` below, which
proves it equivalent to the real-arithmetic formula). -/
def hitTest (e center : Vec3) : Bool :=
  let q := Vec3.dot e rayDirRaw
  let s := Vec3.dot e center
  if s < 0 then decide (0 ≤ q) || decide (q * q < 11 / 10 * (s * s))
  else if s = 0 then decide (0 < q)
  else decide (0 < q) && decide (11 / 10 * (s * s) < q * q)

/-- Embeds the per-voxel-center classification of source lines 111-119:
count the edges whose `hitTest` fires and classify as inside iff the count
is odd (`count % 2 == 1`).  The local variable `inside = False` of line 113
is dead in the source (assigned, never read) and is omitted.  `direction`
is recomputed on every iteration in the source but is the same constant
vector every time; it is folded into `hitTest`. -/
def classifyCenter (edges : List MeshEdge) (center : Vec3) : Bool :=
  decide ((edges.countP fun e => hitTest (edgeCenter e) center) % 2 = 1)

/-- Embeds the voxel-center computation of source lines 112 and 130:
`center = min_corner + Vector(idx) * voxel_size + Vector((0.5, 0.5, 0.5)) * voxel_size`. -/
def voxelCenter (min_corner : Vec3) (voxel_size : ℚ) (i : Idx) : Vec3 :=
  min_corner + (⟨(i.1 : ℚ), (i.2.1 : ℚ), (i.2.2 : ℚ)⟩ : Vec3) * voxel_size +
    (⟨1 / 2, 1 / 2, 1 / 2⟩ : Vec3) * voxel_size

/-- One iteration of the classification sweep of source lines 110-120 at
index `i`: `np.ndenumerate` reads the cell's current value when it reaches
`i` and the generator's `if not val` filter skips the index if the cell is
already true; otherwise the center is classified and, when the crossing
count is odd, `voxel_grid.mark(idx)` is applied. -/
def sweepStep (edges : List MeshEdge) (min_corner : Vec3) (voxel_size : ℚ)
    (g : VoxelGrid) (i : Idx) : VoxelGrid :=
  if g.grid i then g
  else if classifyCenter edges (voxelCenter min_corner voxel_size i) then g.mark i
  else g

/-- Embeds the whole classification sweep
`for idx in voxel_grid.iter_empty(): ...` (source lines 110-120).  The
generator walks the live array in `np.ndenumerate` row-major order, so the
loop is a fold of `sweepStep` over all indices of the grid shape: each
index's current value is read at visit time (live semantics), exactly as
the Python generator does. -/
def sweep (edges : List MeshEdge) (min_corner : Vec3) (voxel_size : ℚ)
    (g : VoxelGrid) : VoxelGrid :=
  (allIndices g.grid_size).foldl (sweepStep edges min_corner voxel_size) g

/-- Fuel-based decimal rendering of a natural number, least significant
digit first into the accumulator; models how Python's `str`/f-string
renders a nonnegative int (and mirrors the structure of decimal printing
so that it reduces in the kernel). -/
def natStrAux : ℕ → ℕ → List Char → List Char
  | 0, _, acc => acc
  | fuel + 1, n, acc =>
    let acc' := Nat.digitChar (n % 10) :: acc
    if n / 10 = 0 then acc' else natStrAux fuel (n / 10) acc'

/-- Decimal rendering of a natural number, as Python prints it. -/
def natStr (n : ℕ) : List Char :=
  natStrAux (n + 1) n []

/-- Decimal rendering of a Python int (a possible minus sign followed by
the digits); the emission loop only ever formats nonnegative indices. -/
def intStr (n : ℤ) : List Char :=
  if n < 0 then '-' :: natStr n.natAbs else natStr n.toNat

/-- Embeds the f-string rendering of a Python index tuple `f"{idx}"`:
`(a, b, c)` with a comma and a space between components. -/
def fmtIdx (i : Idx) : List Char :=
  '(' :: (intStr i.1 ++ ',' :: ' ' :: (intStr i.2.1 ++ ',' :: ' ' :: (intStr i.2.2 ++ [')'])))

/-- Embeds the name assignment `cube.name = f"VCG_Cube_{idx}"` of source
line 135. -/
def cubeName (i : Idx) : String :=
  String.mk ("VCG_Cube_".data ++ fmtIdx i)

/-- Embeds the emission loop of source lines 127-137: walk every index of
the final grid in `np.ndenumerate` order, skip unfilled voxels
(`if not filled: continue`), and for each filled voxel create one cube of
edge length `voxel_size` at the voxel center when `props.use_boxes` is
set.  No other primitive type is created anywhere in the source: the
`use_spheres`, `use_capsules` and `merge_output` flags are never read by
`execute`. -/
def emit (props : Props) (min_corner : Vec3) (g : VoxelGrid) : List Primitive :=
  (allIndices g.grid_size).filterMap fun i =>
    if !(g.grid i) then none
    else if props.use_boxes then
      some { shape := Shape.box
             size := props.voxel_size
             location := voxelCenter min_corner props.voxel_size i
             name := cubeName i }
    else none

/-- The outcome of the precondition-failure path of source lines 78-84:
`self.report({'ERROR'}, "Select a mesh object."); return {'CANCELLED'}`.
It happens before any collection lookup, grid allocation or primitive
creation, so all effect fields are empty. -/
def cancelledResult : ExecResult :=
  { status := ExecStatus.CANCELLED
    reports := [(ReportLevel.ERROR, "Select a mesh object.")]
    createdCollection := false
    grid := none
    primitives := []
    mergedMeshCount := 0 }

/-- Embeds `VCG_OT_Generate.execute` (source lines 78-141).  Stages, in
source order: precondition check (`if not obj or obj.type != 'MESH'`),
world-space bounds from the transformed bound-box corners, `VoxelGrid`
construction, `"VCG_Colliders"` collection lookup/creation, world-space
edge extraction (`bm.from_mesh` + `bm.transform`), the classification
sweep, a dead loop over `iter_empty` that only `continue`s (line 122-123,
no effect, omitted), the emission loop, and the final report.  The
`bpy.ops.object.mode_set` call of line 87 touches only UI mode state and
has no observable effect in this model. -/
def execute (scene : Scene) (active_object : Option Obj) : ExecResult :=
  match active_object with
  | none => cancelledResult
  | some obj =>
    if obj.type ≠ ObjType.MESH then cancelledResult
    else
      let props := scene.props
      let wm := obj.world_matrix
      let bounds := obj.bound_box.map wm.apply
      let min_corner := minCorner bounds
      let max_corner := maxCorner bounds
      let voxel_size := props.voxel_size
      let g0 := VoxelGrid.init min_corner max_corner voxel_size
      let edges := obj.data.edges.map fun e => (wm.apply e.1, wm.apply e.2)
      let gFinal := sweep edges min_corner voxel_size g0
      { status := ExecStatus.FINISHED
        reports := [(ReportLevel.INFO, "Starting voxel-based primitive fitting..."),
                    (ReportLevel.INFO, "Voxel primitives placed.")]
        createdCollection := !scene.vcgCollidersExists
        grid := some gFinal
        primitives := emit props min_corner gFinal
        mergedMeshCount := 0 }

/-- Replaces the `voxel_resolution` property of a scene, leaving everything
else unchanged (for stating that the core algorithm does not consume it). -/
def setVoxelResolution (r : ℤ) (s : Scene) : Scene :=
  { s with props := { s.props with voxel_resolution := r } }

/-- Replaces the `use_spheres` property of a scene, leaving everything else
unchanged. -/
def setUseSpheres (b : Bool) (s : Scene) : Scene :=
  { s with props := { s.props with use_spheres := b } }

/-- Replaces the `use_capsules` property of a scene, leaving everything
else unchanged. -/
def setUseCapsules (b : Bool) (s : Scene) : Scene :=
  { s with props := { s.props with use_capsules := b } }

/-- Specification-side description of the classification stage, for the
refinement claim: classify every in-range voxel of the initially all-false
grid independently, against a snapshot of the (immutable) edge data — each
voxel's value depends only on the fixed ray direction, its own center and
the edges, never on the marks made for other voxels. -/
def snapshotClassification (edges : List MeshEdge) (min_corner : Vec3)
    (voxel_size : ℚ) (gs : ℤ × ℤ × ℤ) : Idx → Bool :=
  fun i => idxInRange gs i && classifyCenter edges (voxelCenter min_corner voxel_size i)

/-- An integer is in `(List.range n.toNat).map Int.ofNat` iff it lies in
`[0, n)`. -/
lemma mem_rangeInt {n a : ℤ} :
    a ∈ (List.range n.toNat).map Int.ofNat ↔ 0 ≤ a ∧ a < n := by
  simp only [List.mem_map, List.mem_range]
  constructor
  · rintro ⟨k, hk, rfl⟩
    exact ⟨Int.ofNat_nonneg k, Int.lt_toNat.mp hk⟩
  · rintro ⟨h0, h1⟩
    refine ⟨a.toNat, Int.lt_toNat.mpr (by rwa [Int.toNat_of_nonneg h0]), ?_⟩
    exact_mod_cast Int.toNat_of_nonneg h0

/-- Membership in the row-major enumeration is exactly the in-range test of
the grid accessors. -/
lemma mem_allIndices {gs : ℤ × ℤ × ℤ} {i : Idx} :
    i ∈ allIndices gs ↔ idxInRange gs i = true := by
  obtain ⟨a, b, c⟩ := i
  constructor
  · intro h
    simp only [allIndices, List.mem_flatMap] at h
    obtain ⟨x, hx, y, hy, h⟩ := h
    rw [List.mem_map] at h
    obtain ⟨z, hz, hEq⟩ := h
    cases hEq
    rw [mem_rangeInt] at hx hy hz
    simp only [idxInRange, Bool.and_eq_true, decide_eq_true_eq]
    exact ⟨⟨hx, hy⟩, hz⟩
  · intro h
    simp only [idxInRange, Bool.and_eq_true, decide_eq_true_eq] at h
    simp only [allIndices, List.mem_flatMap]
    exact ⟨a, mem_rangeInt.mpr h.1.1, b, mem_rangeInt.mpr h.1.2,
      List.mem_map.mpr ⟨c, mem_rangeInt.mpr h.2, rfl⟩⟩

/-- Row-major strict ordering on index triples: the order in which
`np.ndenumerate` yields the indices (first axis slowest, last fastest). -/
def idxLt (i j : Idx) : Prop :=
  i.1 < j.1 ∨ (i.1 = j.1 ∧ (i.2.1 < j.2.1 ∨ (i.2.1 = j.2.1 ∧ i.2.2 < j.2.2)))

/-- The row-major enumeration is strictly increasing in row-major order. -/
lemma pairwise_allIndices (gs : ℤ × ℤ × ℤ) :
    (allIndices gs).Pairwise idxLt := by
  unfold allIndices
  rw [List.pairwise_flatMap]
  refine ⟨fun a _ => ?_, ?_⟩
  · rw [List.pairwise_flatMap]
    refine ⟨fun b _ => ?_, ?_⟩
    · rw [List.pairwise_map, List.pairwise_map]
      exact (List.pairwise_lt_range _).imp fun h =>
        Or.inr ⟨rfl, Or.inr ⟨rfl, Int.ofNat_lt.mpr h⟩⟩
    · rw [List.pairwise_map]
      refine (List.pairwise_lt_range _).imp fun h x hx y hy => ?_
      obtain ⟨z1, _, rfl⟩ := List.mem_map.mp hx
      obtain ⟨z2, _, rfl⟩ := List.mem_map.mp hy
      exact Or.inr ⟨rfl, Or.inl (Int.ofNat_lt.mpr h)⟩
  · rw [List.pairwise_map]
    refine (List.pairwise_lt_range _).imp fun h x hx y hy => ?_
    simp only [List.mem_flatMap] at hx hy
    obtain ⟨y1, _, hx2⟩ := hx
    obtain ⟨z1, _, rfl⟩ := List.mem_map.mp hx2
    obtain ⟨y2, _, hy2⟩ := hy
    obtain ⟨z2, _, rfl⟩ := List.mem_map.mp hy2
    exact Or.inl (Int.ofNat_lt.mpr h)

/-- Row-major order is irreflexive, so the enumeration has no duplicates. -/
lemma nodup_allIndices (gs : ℤ × ℤ × ℤ) : (allIndices gs).Nodup := by
  refine (pairwise_allIndices gs).imp ?_
  intro a b h hEq
  subst hEq
  rcases h with h | ⟨_, h | ⟨_, h⟩⟩ <;> exact absurd h (lt_irrefl _)

/-- One sweep step never changes the grid's corners or voxel size (marking
only rewrites the occupancy array). -/
lemma sweepStep_fields (edges : List MeshEdge) (minc : Vec3) (vs : ℚ)
    (g : VoxelGrid) (i : Idx) :
    (sweepStep edges minc vs g i).min_corner = g.min_corner ∧
    (sweepStep edges minc vs g i).max_corner = g.max_corner ∧
    (sweepStep edges minc vs g i).voxel_size = g.voxel_size := by
  unfold sweepStep VoxelGrid.mark
  split_ifs <;> exact ⟨rfl, rfl, rfl⟩

/-- One sweep step never changes the grid shape. -/
lemma sweepStep_grid_size (edges : List MeshEdge) (minc : Vec3) (vs : ℚ)
    (g : VoxelGrid) (i : Idx) :
    (sweepStep edges minc vs g i).grid_size = g.grid_size := by
  obtain ⟨h1, h2, h3⟩ := sweepStep_fields edges minc vs g i
  unfold VoxelGrid.grid_size VoxelGrid.dims
  rw [h1, h2, h3]

/-- The whole sweep never changes the grid's corners or voxel size. -/
lemma foldl_sweepStep_fields (edges : List MeshEdge) (minc : Vec3) (vs : ℚ) :
    ∀ (l : List Idx) (g : VoxelGrid),
      (l.foldl (sweepStep edges minc vs) g).min_corner = g.min_corner ∧
      (l.foldl (sweepStep edges minc vs) g).max_corner = g.max_corner ∧
      (l.foldl (sweepStep edges minc vs) g).voxel_size = g.voxel_size
  | [], g => ⟨rfl, rfl, rfl⟩
  | i :: l, g => by
    obtain ⟨h1, h2, h3⟩ := foldl_sweepStep_fields edges minc vs l (sweepStep edges minc vs g i)
    obtain ⟨k1, k2, k3⟩ := sweepStep_fields edges minc vs g i
    exact ⟨h1.trans k1, h2.trans k2, h3.trans k3⟩

/-- The whole sweep never changes the grid shape. -/
lemma foldl_sweepStep_grid_size (edges : List MeshEdge) (minc : Vec3) (vs : ℚ)
    (l : List Idx) (g : VoxelGrid) :
    (l.foldl (sweepStep edges minc vs) g).grid_size = g.grid_size := by
  obtain ⟨h1, h2, h3⟩ := foldl_sweepStep_fields edges minc vs l g
  unfold VoxelGrid.grid_size VoxelGrid.dims
  rw [h1, h2, h3]

/-- Effect of one sweep step on a cell, when the visited index is in range
and currently unmarked: the visited cell becomes its classification value
and every other cell is untouched. -/
lemma sweepStep_grid_apply (edges : List MeshEdge) (minc : Vec3) (vs : ℚ)
    (g : VoxelGrid) (i : Idx) (hrange : idxInRange g.grid_size i = true)
    (hfalse : g.grid i = false) (j : Idx) :
    (sweepStep edges minc vs g i).grid j =
      if j = i then classifyCenter edges (voxelCenter minc vs i) else g.grid j := by
  unfold sweepStep VoxelGrid.mark
  rw [hfalse]
  simp only [Bool.false_eq_true, if_false, hrange, if_true]
  rw [apply_ite VoxelGrid.grid]
  by_cases hj : j = i
  · subst hj
    rw [if_pos rfl]
    by_cases hc : classifyCenter edges (voxelCenter minc vs j) = true
    · simp [hc, Function.update]
    · rw [Bool.not_eq_true] at hc
      simp [hc, hfalse]
  · rw [if_neg hj, apply_ite (fun f : Idx → Bool => f j)]
    simp [Function.update_apply, hj]

/-- Master lemma for the classification sweep: folding `sweepStep` over a
duplicate-free list of in-range indices whose cells all start false sets
each listed cell to its (grid-independent) classification value and leaves
every other cell alone.  This is the formal content of the sweep's
order-independence: the live-read skip (`if not val`) never fires, because
a cell can only be marked at its own visit. -/
lemma foldl_sweepStep_grid (edges : List MeshEdge) (minc : Vec3) (vs : ℚ) :
    ∀ (l : List Idx) (g : VoxelGrid),
      l.Nodup →
      (∀ i ∈ l, g.grid i = false) →
      (∀ i ∈ l, idxInRange g.grid_size i = true) →
      ∀ j, (l.foldl (sweepStep edges minc vs) g).grid j =
        if j ∈ l then classifyCenter edges (voxelCenter minc vs j) else g.grid j
  | [], g, _, _, _, j => by simp
  | i :: l, g, hnd, hfalse, hrange, j => by
    have hiF : g.grid i = false := hfalse i (List.mem_cons_self i l)
    have hiR : idxInRange g.grid_size i = true := hrange i (List.mem_cons_self i l)
    have hstep := sweepStep_grid_apply edges minc vs g i hiR hiF
    have hnotmem : i ∉ l := (List.nodup_cons.mp hnd).1
    have ih := foldl_sweepStep_grid edges minc vs l (sweepStep edges minc vs g i)
      (List.nodup_cons.mp hnd).2
      (fun k hk => by
        have hki : k ≠ i := fun hEq => hnotmem (hEq ▸ hk)
        rw [hstep k, if_neg hki]
        exact hfalse k (List.mem_cons_of_mem i hk))
      (fun k hk => by
        rw [sweepStep_grid_size]
        exact hrange k (List.mem_cons_of_mem i hk))
    rw [List.foldl_cons, ih j]
    by_cases hjl : j ∈ l
    · rw [if_pos hjl, if_pos (List.mem_cons_of_mem i hjl)]
    · rw [if_neg hjl, hstep j]
      by_cases hji : j = i
      · subst hji
        rw [if_pos rfl, if_pos (List.mem_cons_self j l)]
      · rw [if_neg hji, if_neg (by simp [List.mem_cons, hji, hjl])]

/-- Correctness of the `ℚ` decision procedure `hitTest` against the
real-arithmetic quantity the source computes: with
`direction = (1, 0.1, 0.3).normalized() = rayDirRaw / √(11/10)`,
`hitTest e c` is true exactly when
`e.dot(direction - c) = e·rayDirRaw / √(11/10) - e·c` is positive. -/
lemma hitTest_iff_real (e center : Vec3) :
    hitTest e center = true ↔
      ((Vec3.dot e rayDirRaw : ℚ) : ℝ) / Real.sqrt (11 / 10) -
        ((Vec3.dot e center : ℚ) : ℝ) > 0 := by
  have hn : (0 : ℝ) < Real.sqrt (11 / 10) := Real.sqrt_pos.mpr (by norm_num)
  have hn2 : Real.sqrt (11 / 10) ^ 2 = 11 / 10 := Real.sq_sqrt (by norm_num)
  simp only [hitTest]
  set q : ℚ := Vec3.dot e rayDirRaw with hqdef
  set s : ℚ := Vec3.dot e center with hsdef
  set n : ℝ := Real.sqrt (11 / 10) with hndef
  have hSn2 : ((s : ℚ) : ℝ) * n * (((s : ℚ) : ℝ) * n) =
      11 / 10 * (((s : ℚ) : ℝ) * ((s : ℚ) : ℝ)) := by
    have h : ((s : ℚ) : ℝ) * n * (((s : ℚ) : ℝ) * n) =
        ((s : ℚ) : ℝ) * ((s : ℚ) : ℝ) * n ^ 2 := by ring
    rw [h, hn2]
    ring
  rw [gt_iff_lt, sub_pos, lt_div_iff₀ hn]
  split_ifs with hs hs0
  · simp only [Bool.or_eq_true, decide_eq_true_eq]
    have hsR : ((s : ℚ) : ℝ) < 0 := by exact_mod_cast hs
    constructor
    · rintro (h | h)
      · have hqR : (0 : ℝ) ≤ ((q : ℚ) : ℝ) := by exact_mod_cast h
        exact lt_of_lt_of_le (mul_neg_of_neg_of_pos hsR hn) hqR
      · have hR : ((q : ℚ) : ℝ) * ((q : ℚ) : ℝ) <
            11 / 10 * (((s : ℚ) : ℝ) * ((s : ℚ) : ℝ)) := by
          have h2 : (((q * q : ℚ)) : ℝ) < (((11 / 10 * (s * s) : ℚ)) : ℝ) := by
            exact_mod_cast h
          push_cast at h2
          linarith
        by_contra hcon
        rw [not_lt] at hcon
        have h1 : (0 : ℝ) ≤ ((s : ℚ) : ℝ) * n - ((q : ℚ) : ℝ) := sub_nonneg.mpr hcon
        have h2 : ((s : ℚ) : ℝ) * n + ((q : ℚ) : ℝ) < 0 := by
          have := mul_neg_of_neg_of_pos hsR hn
          linarith
        have h3 : (((s : ℚ) : ℝ) * n - ((q : ℚ) : ℝ)) *
            (((s : ℚ) : ℝ) * n + ((q : ℚ) : ℝ)) ≤ 0 :=
          mul_nonpos_of_nonneg_of_nonpos h1 h2.le
        nlinarith [h3, hSn2, hR]
    · intro h
      by_cases hq : 0 ≤ q
      · exact Or.inl hq
      · right
        have hqR : ((q : ℚ) : ℝ) < 0 := by exact_mod_cast not_le.mp hq
        have h1 : (0 : ℝ) < ((q : ℚ) : ℝ) - ((s : ℚ) : ℝ) * n := sub_pos.mpr h
        have h2 : ((q : ℚ) : ℝ) + ((s : ℚ) : ℝ) * n < 0 := by
          have hsn : ((s : ℚ) : ℝ) * n < ((q : ℚ) : ℝ) := h
          linarith
        have h3 : (((q : ℚ) : ℝ) - ((s : ℚ) : ℝ) * n) *
            (((q : ℚ) : ℝ) + ((s : ℚ) : ℝ) * n) < 0 :=
          mul_neg_of_pos_of_neg h1 h2
        have hR : ((q : ℚ) : ℝ) * ((q : ℚ) : ℝ) <
            11 / 10 * (((s : ℚ) : ℝ) * ((s : ℚ) : ℝ)) := by nlinarith [h3, hSn2]
        have hcast : (((q * q : ℚ)) : ℝ) < (((11 / 10 * (s * s) : ℚ)) : ℝ) := by
          push_cast
          linarith
        exact_mod_cast hcast
  · simp only [decide_eq_true_eq]
    rw [hs0]
    constructor
    · intro h
      have hqR : (0 : ℝ) < ((q : ℚ) : ℝ) := by exact_mod_cast h
      simpa using hqR
    · intro h
      have hqR : (0 : ℝ) < ((q : ℚ) : ℝ) := by simpa using h
      exact_mod_cast hqR
  · simp only [Bool.and_eq_true, decide_eq_true_eq]
    have hsR : (0 : ℝ) < ((s : ℚ) : ℝ) := by
      have hpos : 0 < s := lt_of_le_of_ne (not_lt.mp hs) (Ne.symm hs0)
      exact_mod_cast hpos
    constructor
    · rintro ⟨h1, h2⟩
      have hqR : (0 : ℝ) < ((q : ℚ) : ℝ) := by exact_mod_cast h1
      have hR : 11 / 10 * (((s : ℚ) : ℝ) * ((s : ℚ) : ℝ)) <
          ((q : ℚ) : ℝ) * ((q : ℚ) : ℝ) := by
        have h3 : (((11 / 10 * (s * s) : ℚ)) : ℝ) < (((q * q : ℚ)) : ℝ) := by
          exact_mod_cast h2
        push_cast at h3
        linarith
      by_contra hcon
      rw [not_lt] at hcon
      have ha : (0 : ℝ) ≤ ((s : ℚ) : ℝ) * n - ((q : ℚ) : ℝ) := sub_nonneg.mpr hcon
      have hb : (0 : ℝ) < ((s : ℚ) : ℝ) * n + ((q : ℚ) : ℝ) := by
        have := mul_pos hsR hn
        linarith
      have h3 : (0 : ℝ) ≤ (((s : ℚ) : ℝ) * n - ((q : ℚ) : ℝ)) *
          (((s : ℚ) : ℝ) * n + ((q : ℚ) : ℝ)) := mul_nonneg ha hb.le
      nlinarith [h3, hSn2, hR]
    · intro h
      have hq : (0 : ℝ) < ((q : ℚ) : ℝ) := lt_trans (mul_pos hsR hn) h
      refine ⟨by exact_mod_cast hq, ?_⟩
      have ha : (0 : ℝ) < ((q : ℚ) : ℝ) - ((s : ℚ) : ℝ) * n := sub_pos.mpr h
      have hb : (0 : ℝ) < ((q : ℚ) : ℝ) + ((s : ℚ) : ℝ) * n := by
        have := mul_pos hsR hn
        linarith
      have h3 : (0 : ℝ) < (((q : ℚ) : ℝ) - ((s : ℚ) : ℝ) * n) *
          (((q : ℚ) : ℝ) + ((s : ℚ) : ℝ) * n) := mul_pos ha hb
      have hR : 11 / 10 * (((s : ℚ) : ℝ) * ((s : ℚ) : ℝ)) <
          ((q : ℚ) : ℝ) * ((q : ℚ) : ℝ) := by nlinarith [h3, hSn2]
      have hcast : (((11 / 10 * (s * s) : ℚ)) : ℝ) < (((q * q : ℚ)) : ℝ) := by
        push_cast
        linarith
      exact_mod_cast hcast

/-- Decimal digit characters are pairwise distinct. -/
lemma digitChar_inj : ∀ a, a < 10 → ∀ b, b < 10 →
    Nat.digitChar a = Nat.digitChar b → a = b := by decide

/-- Decimal digit characters are never the tuple separator comma. -/
lemma digitChar_ne_comma : ∀ a, a < 10 → Nat.digitChar a ≠ ',' := by decide

/-- Canonical form of the fuel-based decimal renderer: with enough fuel it
produces the base-10 digit string (most significant first) onto the
accumulator. -/
lemma natStrAux_eq : ∀ (fuel n : ℕ) (acc : List Char), 0 < fuel → n < 10 ^ fuel →
    natStrAux fuel n acc =
      (if n = 0 then ['0'] else (Nat.digits 10 n).reverse.map Nat.digitChar) ++ acc
  | 0, n, _, hpos, _ => absurd hpos (lt_irrefl 0)
  | fuel + 1, n, acc, _, hlt => by
    simp only [natStrAux]
    by_cases h0 : n / 10 = 0
    · have hn10 : n < 10 := (Nat.div_eq_zero_iff (by norm_num)).mp h0
      rw [if_pos h0]
      by_cases hn : n = 0
      · subst hn
        simp only [if_pos rfl, Nat.zero_mod]
        rfl
      · rw [if_neg hn]
        rw [Nat.digits_def' (b := 10) (by norm_num) (Nat.pos_of_ne_zero hn), h0,
          Nat.digits_zero, List.reverse_cons, List.reverse_nil, List.nil_append,
          List.map_cons, List.map_nil]
        rw [Nat.mod_eq_of_lt hn10]
        rfl
    · have hn : n ≠ 0 := by
        intro h
        exact h0 (by simp [h])
      have hdiv : n / 10 < 10 ^ fuel := by
        rw [Nat.div_lt_iff_lt_mul (by norm_num)]
        calc n < 10 ^ (fuel + 1) := hlt
        _ = 10 ^ fuel * 10 := by rw [pow_succ]
      have hfpos : 0 < fuel := by
        rcases Nat.eq_zero_or_pos fuel with hf | hf
        · exfalso
          apply h0
          subst hf
          have : n < 10 := by simpa using hlt
          exact Nat.div_eq_of_lt this
        · exact hf
      rw [if_neg h0, natStrAux_eq fuel (n / 10) _ hfpos hdiv, if_neg h0, if_neg hn]
      rw [Nat.digits_def' (b := 10) (by norm_num) (Nat.pos_of_ne_zero hn),
        List.reverse_cons, List.map_append, List.map_cons, List.map_nil,
        List.append_assoc]
      rfl

/-- Canonical form of `natStr`: Python's decimal rendering is `"0"` for
zero and the reversed base-10 digit list otherwise. -/
lemma natStr_eq (n : ℕ) :
    natStr n = if n = 0 then ['0'] else (Nat.digits 10 n).reverse.map Nat.digitChar := by
  have hfuel : n < 10 ^ (n + 1) := by
    calc n < 2 ^ n := Nat.lt_two_pow n
    _ ≤ 2 ^ (n + 1) := Nat.pow_le_pow_right (by norm_num) (Nat.le_succ n)
    _ ≤ 10 ^ (n + 1) := Nat.pow_le_pow_left (by norm_num) (n + 1)
  rw [natStr, natStrAux_eq (n + 1) n [] (Nat.succ_pos n) hfuel, List.append_nil]

/-- Every character of a rendered natural number is a decimal digit
character. -/
lemma natStr_all_digits (n : ℕ) :
    ∀ c ∈ natStr n, ∃ d, d < 10 ∧ c = Nat.digitChar d := by
  rw [natStr_eq]
  split_ifs with h
  · intro c hc
    rw [List.mem_singleton] at hc
    exact ⟨0, by norm_num, by rw [hc]; rfl⟩
  · intro c hc
    rw [List.mem_map] at hc
    obtain ⟨d, hd, rfl⟩ := hc
    rw [List.mem_reverse] at hd
    exact ⟨d, Nat.digits_lt_base (by norm_num) hd, rfl⟩

/-- A rendered natural number never contains a comma. -/
lemma natStr_ne_comma (n : ℕ) : ∀ c ∈ natStr n, c ≠ ',' := by
  intro c hc
  obtain ⟨d, hd, rfl⟩ := natStr_all_digits n c hc
  exact digitChar_ne_comma d hd

/-- Mapping the digit-character table over lists of genuine digits is
injective. -/
lemma map_digitChar_inj : ∀ (l1 l2 : List ℕ), (∀ d ∈ l1, d < 10) →
    (∀ d ∈ l2, d < 10) → l1.map Nat.digitChar = l2.map Nat.digitChar → l1 = l2
  | [], [], _, _, _ => rfl
  | [], _ :: _, _, _, h => by simp at h
  | _ :: _, [], _, _, h => by simp at h
  | a :: l1, b :: l2, h1, h2, h => by
    rw [List.map_cons, List.map_cons] at h
    injection h with hhead htail
    have ha : a < 10 := h1 a (List.mem_cons_self a l1)
    have hb : b < 10 := h2 b (List.mem_cons_self b l2)
    rw [digitChar_inj a ha b hb hhead,
      map_digitChar_inj l1 l2 (fun d hd => h1 d (List.mem_cons_of_mem a hd))
        (fun d hd => h2 d (List.mem_cons_of_mem b hd)) htail]

/-- The decimal rendering of a natural number determines the number. -/
lemma natStr_injective {m n : ℕ} (h : natStr m = natStr n) : m = n := by
  rw [natStr_eq, natStr_eq] at h
  by_cases hm : m = 0 <;> by_cases hn : n = 0
  · rw [hm, hn]
  · exfalso
    rw [if_pos hm, if_neg hn] at h
    have hlen : (Nat.digits 10 n).length = 1 := by
      have hl := congrArg List.length h
      simpa using hl.symm
    obtain ⟨d, hd⟩ := List.length_eq_one.mp hlen
    have hd10 : d < 10 :=
      Nat.digits_lt_base (by norm_num) (by rw [hd]; exact List.mem_singleton_self d)
    have hchar : Nat.digitChar d = '0' := by
      rw [hd] at h
      simp only [List.reverse_cons, List.reverse_nil, List.nil_append, List.map_cons,
        List.map_nil, List.cons.injEq, and_true] at h
      exact h.symm
    have hd0 : d = 0 := digitChar_inj d hd10 0 (by norm_num) (by rw [hchar]; rfl)
    have hn0 : n = 0 := by
      have hof := congrArg (Nat.ofDigits 10) hd
      rw [Nat.ofDigits_digits, hd0] at hof
      simpa [Nat.ofDigits_cons, Nat.ofDigits_nil] using hof
    exact hn hn0
  · exfalso
    rw [if_neg hm, if_pos hn] at h
    have hlen : (Nat.digits 10 m).length = 1 := by
      have hl := congrArg List.length h
      simpa using hl
    obtain ⟨d, hd⟩ := List.length_eq_one.mp hlen
    have hd10 : d < 10 :=
      Nat.digits_lt_base (by norm_num) (by rw [hd]; exact List.mem_singleton_self d)
    have hchar : Nat.digitChar d = '0' := by
      rw [hd] at h
      simp only [List.reverse_cons, List.reverse_nil, List.nil_append, List.map_cons,
        List.map_nil, List.cons.injEq, and_true] at h
      exact h
    have hd0 : d = 0 := digitChar_inj d hd10 0 (by norm_num) (by rw [hchar]; rfl)
    have hm0 : m = 0 := by
      have hof := congrArg (Nat.ofDigits 10) hd
      rw [Nat.ofDigits_digits, hd0] at hof
      simpa [Nat.ofDigits_cons, Nat.ofDigits_nil] using hof
    exact hm hm0
  · rw [if_neg hm, if_neg hn] at h
    have hrev : (Nat.digits 10 m).reverse = (Nat.digits 10 n).reverse :=
      map_digitChar_inj _ _
        (fun d hd => Nat.digits_lt_base (by norm_num) (List.mem_reverse.mp hd))
        (fun d hd => Nat.digits_lt_base (by norm_num) (List.mem_reverse.mp hd)) h
    have hdig : Nat.digits 10 m = Nat.digits 10 n := List.reverse_injective hrev
    have hof := congrArg (Nat.ofDigits 10) hdig
    rwa [Nat.ofDigits_digits, Nat.ofDigits_digits] at hof

/-- On nonnegative integers the Python rendering is the natural-number
rendering of `toNat`. -/
lemma intStr_nonneg {n : ℤ} (h : 0 ≤ n) : intStr n = natStr n.toNat := by
  rw [intStr, if_neg (not_lt.mpr h)]

/-- Splitting a character list at a comma is unambiguous when neither
prefix contains a comma. -/
lemma append_comma_inj : ∀ (a a' : List Char) {b b' : List Char},
    (∀ c ∈ a, c ≠ ',') → (∀ c ∈ a', c ≠ ',') →
    a ++ ',' :: b = a' ++ ',' :: b' → a = a' ∧ b = b'
  | [], [], _, _, _, _, h => by
    injection h with _ h2
    exact ⟨rfl, h2⟩
  | [], c :: a', _, _, _, h2, h => by
    exfalso
    injection h with h1 _
    exact h2 c (List.mem_cons_self c a') h1.symm
  | c :: a, [], _, _, h1, _, h => by
    exfalso
    injection h with hh _
    exact h1 c (List.mem_cons_self c a) hh
  | c :: a, c' :: a', b, b', h1, h2, h => by
    injection h with hh ht
    obtain ⟨ha, hb⟩ := append_comma_inj a a'
      (fun x hx => h1 x (List.mem_cons_of_mem c hx))
      (fun x hx => h2 x (List.mem_cons_of_mem c' hx)) ht
    exact ⟨by rw [hh, ha], hb⟩

/-- The grid-index-derived cube names are injective on nonnegative index
triples (the only ones the emission loop produces). -/
lemma cubeName_inj_nonneg {i j : Idx}
    (hi1 : 0 ≤ i.1) (hi2 : 0 ≤ i.2.1) (hi3 : 0 ≤ i.2.2)
    (hj1 : 0 ≤ j.1) (hj2 : 0 ≤ j.2.1) (hj3 : 0 ≤ j.2.2)
    (h : cubeName i = cubeName j) : i = j := by
  unfold cubeName at h
  injection h with hdata
  rw [List.append_right_inj] at hdata
  unfold fmtIdx at hdata
  injection hdata with _ hdata
  rw [intStr_nonneg hi1, intStr_nonneg hi2, intStr_nonneg hi3] at hdata
  rw [intStr_nonneg hj1, intStr_nonneg hj2, intStr_nonneg hj3] at hdata
  obtain ⟨e1, hdata⟩ := append_comma_inj _ _
    (natStr_ne_comma _) (natStr_ne_comma _) hdata
  injection hdata with _ hdata
  obtain ⟨e2, hdata⟩ := append_comma_inj _ _
    (natStr_ne_comma _) (natStr_ne_comma _) hdata
  injection hdata with _ hdata
  rw [List.append_left_inj] at hdata
  have g1 : i.1 = j.1 := by
    have := natStr_injective e1
    rw [← Int.toNat_of_nonneg hi1, ← Int.toNat_of_nonneg hj1, this]
  have g2 : i.2.1 = j.2.1 := by
    have := natStr_injective e2
    rw [← Int.toNat_of_nonneg hi2, ← Int.toNat_of_nonneg hj2, this]
  have g3 : i.2.2 = j.2.2 := by
    have := natStr_injective hdata
    rw [← Int.toNat_of_nonneg hi3, ← Int.toNat_of_nonneg hj3, this]
  obtain ⟨ia, ib, ic⟩ := i
  obtain ⟨ja, jb, jc⟩ := j
  simp only at g1 g2 g3
  rw [g1, g2, g3]

/-- An in-range index has nonnegative components. -/
lemma idxInRange_nonneg {gs : ℤ × ℤ × ℤ} {i : Idx} (h : idxInRange gs i = true) :
    0 ≤ i.1 ∧ 0 ≤ i.2.1 ∧ 0 ≤ i.2.2 := by
  simp only [idxInRange, Bool.and_eq_true, decide_eq_true_eq] at h
  exact ⟨h.1.1.1, h.1.2.1, h.2.1⟩

/-- Filtering-then-mapping presentation of a `filterMap` whose function is
a guarded `some`. -/
lemma filterMap_guard_eq_map_filter {α β : Type} (p : α → Bool) (f : α → β) :
    ∀ l : List α,
      l.filterMap (fun a => if p a then some (f a) else none) = (l.filter p).map f
  | [] => rfl
  | a :: l => by
    by_cases h : p a = true
    · simp [List.filterMap_cons, List.filter_cons, h, filterMap_guard_eq_map_filter p f l]
    · rw [Bool.not_eq_true] at h
      simp [List.filterMap_cons, List.filter_cons, h, filterMap_guard_eq_map_filter p f l]

/-- With boxes enabled, the emission loop produces exactly one cube per
occupied voxel, in row-major order: edge length `voxel_size`, location the
voxel center, name derived from the grid index. -/
lemma emit_eq_map (props : Props) (minc : Vec3) (g : VoxelGrid)
    (hb : props.use_boxes = true) :
    emit props minc g = ((allIndices g.grid_size).filter fun i => g.grid i).map
      fun i => { shape := Shape.box
                 size := props.voxel_size
                 location := voxelCenter minc props.voxel_size i
                 name := cubeName i } := by
  unfold emit
  rw [List.filterMap_congr (g := fun i => if g.grid i then some
      (Primitive.mk Shape.box props.voxel_size
        (voxelCenter minc props.voxel_size i) (cubeName i)) else none)
    (fun i _ => by cases hgi : g.grid i <;> simp [hgi, hb])]
  exact filterMap_guard_eq_map_filter _ _ _

/-- With boxes disabled the emission loop produces nothing (no other
primitive type is ever created in the source). -/
lemma emit_no_boxes (props : Props) (minc : Vec3) (g : VoxelGrid)
    (hb : props.use_boxes = false) :
    emit props minc g = [] := by
  unfold emit
  rw [List.filterMap_eq_nil_iff]
  intro i _
  by_cases hg : g.grid i = true
  · rw [hg, hb]
    rfl
  · rw [Bool.not_eq_true] at hg
    rw [hg]
    rfl

/-- The names carried by the primitives of one run are pairwise distinct:
distinct occupied voxels render distinct index tuples. -/
lemma emit_names_nodup (props : Props) (minc : Vec3) (g : VoxelGrid) :
    ((emit props minc g).map Primitive.name).Nodup := by
  by_cases hb : props.use_boxes = true
  · rw [emit_eq_map props minc g hb, List.map_map]
    have hnames : ((allIndices g.grid_size).filter fun i => g.grid i).map cubeName
        = ((allIndices g.grid_size).filter fun i => g.grid i).map
          (Primitive.name ∘ fun i =>
            { shape := Shape.box
              size := props.voxel_size
              location := voxelCenter minc props.voxel_size i
              name := cubeName i }) := rfl
    rw [← hnames]
    refine List.Nodup.map_on ?_ ((nodup_allIndices g.grid_size).filter _)
    intro x hx y hy hEq
    have hxr := mem_allIndices.mp (List.mem_of_mem_filter hx)
    have hyr := mem_allIndices.mp (List.mem_of_mem_filter hy)
    obtain ⟨hx1, hx2, hx3⟩ := idxInRange_nonneg hxr
    obtain ⟨hy1, hy2, hy3⟩ := idxInRange_nonneg hyr
    exact cubeName_inj_nonneg hx1 hx2 hx3 hy1 hy2 hy3 hEq
  · rw [Bool.not_eq_true] at hb
    rw [emit_no_boxes props minc g hb]
    exact List.nodup_nil

/-- World-space bound-box corners of the selected object
(`bounds = [world_matrix @ Vector(corner) for corner in obj.bound_box]`). -/
def runBounds (obj : Obj) : List Vec3 :=
  obj.bound_box.map obj.world_matrix.apply

/-- The run's `min_corner`. -/
def runMinCorner (obj : Obj) : Vec3 :=
  minCorner (runBounds obj)

/-- The run's `max_corner`. -/
def runMaxCorner (obj : Obj) : Vec3 :=
  maxCorner (runBounds obj)

/-- The run's world-space edge list (`bm.from_mesh(mesh)` followed by
`bm.transform(world_matrix)`). -/
def runEdges (obj : Obj) : List MeshEdge :=
  obj.data.edges.map fun e => (obj.world_matrix.apply e.1, obj.world_matrix.apply e.2)

/-- The grid state after the classification sweep of a successful run. -/
def runGrid (scene : Scene) (obj : Obj) : VoxelGrid :=
  sweep (runEdges obj) (runMinCorner obj) scene.props.voxel_size
    (VoxelGrid.init (runMinCorner obj) (runMaxCorner obj) scene.props.voxel_size)

/-- `execute` with no active object takes the error path. -/
lemma execute_none (scene : Scene) : execute scene none = cancelledResult := rfl

/-- `execute` with a non-mesh active object takes the error path. -/
lemma execute_not_mesh (scene : Scene) (obj : Obj) (h : obj.type ≠ ObjType.MESH) :
    execute scene (some obj) = cancelledResult := by
  simp only [execute]
  rw [if_pos h]

/-- Characterisation of a successful run of `execute` in terms of the named
pipeline stages. -/
lemma execute_mesh (scene : Scene) (obj : Obj) (h : obj.type = ObjType.MESH) :
    execute scene (some obj) =
      { status := ExecStatus.FINISHED
        reports := [(ReportLevel.INFO, "Starting voxel-based primitive fitting..."),
                    (ReportLevel.INFO, "Voxel primitives placed.")]
        createdCollection := !scene.vcgCollidersExists
        grid := some (runGrid scene obj)
        primitives := emit scene.props (runMinCorner obj) (runGrid scene obj)
        mergedMeshCount := 0 } := by
  simp only [execute, runGrid, runEdges, runMinCorner, runMaxCorner, runBounds]
  rw [if_neg (by rw [h]; exact fun hne => hne rfl)]

/-- Unfolding of vector addition. -/
lemma Vec3.add_def (a b : Vec3) : a + b = ⟨a.x + b.x, a.y + b.y, a.z + b.z⟩ := rfl

/-- Unfolding of vector subtraction. -/
lemma Vec3.sub_def (a b : Vec3) : a - b = ⟨a.x - b.x, a.y - b.y, a.z - b.z⟩ := rfl

/-- Unfolding of vector-by-scalar multiplication. -/
lemma Vec3.smul_def (v : Vec3) (s : ℚ) : v * s = ⟨v.x * s, v.y * s, v.z * s⟩ := rfl

/-- The identity world matrix (object placed at the origin with no
rotation or scale). -/
def idMatrix : WorldMatrix :=
  ⟨⟨1, 0, 0⟩, ⟨0, 1, 0⟩, ⟨0, 0, 1⟩, ⟨0, 0, 0⟩⟩

/-- The identity world matrix acts as the identity. -/
lemma idMatrix_apply (v : Vec3) : idMatrix.apply v = v := by
  obtain ⟨x, y, z⟩ := v
  simp only [idMatrix, WorldMatrix.apply, Vec3.dot, Vec3.mk.injEq]
  refine ⟨by ring, by ring, by ring⟩

/-- The 8 corners of the axis-aligned box `[a,b]³`, as Blender's
`bound_box` lists them for such an object. -/
def cubeCorners (a b : ℚ) : List Vec3 :=
  [⟨a, a, a⟩, ⟨a, a, b⟩, ⟨a, b, a⟩, ⟨a, b, b⟩, ⟨b, a, a⟩, ⟨b, a, b⟩, ⟨b, b, a⟩, ⟨b, b, b⟩]

/-- Componentwise minimum of the corners of `[a,b]³`. -/
lemma minCorner_cubeCorners {a b : ℚ} (h : a ≤ b) :
    minCorner (cubeCorners a b) = ⟨a, a, a⟩ := by
  simp [minCorner, cubeCorners, Vec3.cmin, min_self, h, min_eq_left]

/-- Componentwise maximum of the corners of `[a,b]³`. -/
lemma maxCorner_cubeCorners {a b : ℚ} (h : a ≤ b) :
    maxCorner (cubeCorners a b) = ⟨b, b, b⟩ := by
  simp [maxCorner, cubeCorners, Vec3.cmax, max_self, h, max_eq_right]

/-- A two-edge wireframe: one edge on the `x = 10, z = 10` side, one on the
`x = -10, z = -10` side, with `y` spanning `[-10, 10]`; vertex extremes
give the bound box `[-10, 10]³`.  The mesh has no polygons at all. -/
def wireEdges : List MeshEdge :=
  [(⟨10, -10, 10⟩, ⟨10, 10, 10⟩), (⟨-10, -10, -10⟩, ⟨-10, 10, -10⟩)]

/-- A mesh-typed object holding the polygon-free wireframe. -/
def objWire : Obj :=
  { type := ObjType.MESH
    bound_box := cubeCorners (-10) 10
    world_matrix := idMatrix
    data := { polygons := 0, edges := wireEdges } }

/-- A mesh-typed object whose mesh is completely empty (no polygons, no
edges). -/
def objEmpty : Obj :=
  { type := ObjType.MESH
    bound_box := cubeCorners 0 1
    world_matrix := idMatrix
    data := { polygons := 0, edges := [] } }

/-- Default-like configuration: voxel size 20, boxes and spheres enabled,
merge disabled, resolution 32. -/
def baseProps : Props :=
  { voxel_size := 20
    use_boxes := true
    use_spheres := true
    use_capsules := false
    merge_output := false
    voxel_resolution := 32 }

/-- Scene with the base configuration and no pre-existing collider
collection. -/
def sceneWire : Scene :=
  { props := baseProps, vcgCollidersExists := false }

/-- Scene with merge mode switched on. -/
def sceneMerge : Scene :=
  { props := { baseProps with merge_output := true }, vcgCollidersExists := false }

/-- Scene with boxes off and spheres on. -/
def sceneSpheres : Scene :=
  { props := { baseProps with use_boxes := false, use_spheres := true },
    vcgCollidersExists := false }

/-- The world-space bounds of `objWire` are the corners of `[-10, 10]³`. -/
lemma runMinCorner_wire : runMinCorner objWire = ⟨-10, -10, -10⟩ := by
  have hmap : runBounds objWire = cubeCorners (-10) 10 := by
    simp [runBounds, objWire, cubeCorners, idMatrix_apply]
  rw [runMinCorner, hmap, minCorner_cubeCorners (by norm_num)]

/-- The world-space bounds of `objWire` are the corners of `[-10, 10]³`. -/
lemma runMaxCorner_wire : runMaxCorner objWire = ⟨10, 10, 10⟩ := by
  have hmap : runBounds objWire = cubeCorners (-10) 10 := by
    simp [runBounds, objWire, cubeCorners, idMatrix_apply]
  rw [runMaxCorner, hmap, maxCorner_cubeCorners (by norm_num)]

/-- With the identity transform the world-space edges are the mesh edges. -/
lemma runEdges_wire : runEdges objWire = wireEdges := by
  simp [runEdges, objWire, idMatrix_apply]

/-- Shape of the wire run's grid before the sweep: a single voxel. -/
lemma wire_grid_size_init :
    (VoxelGrid.init ⟨-10, -10, -10⟩ ⟨10, 10, 10⟩ 20).grid_size = (1, 1, 1) := by
  simp only [VoxelGrid.grid_size, VoxelGrid.dims, VoxelGrid.init, Vec3.sub_def,
    Prod.mk.injEq]
  norm_num [Int.ceil_one]

/-- The single voxel's center for the wire run is the origin. -/
lemma wire_center : voxelCenter ⟨-10, -10, -10⟩ 20 (0, 0, 0) = ⟨0, 0, 0⟩ := by
  simp only [voxelCenter, Vec3.add_def, Vec3.smul_def, Vec3.mk.injEq]
  norm_num

/-- The code's per-edge test fires on exactly one of the two wire edges at
the origin, so the parity count is odd and the voxel is classified inside. -/
lemma wire_classify : classifyCenter wireEdges ⟨0, 0, 0⟩ = true := by
  have h1 : hitTest (edgeCenter (⟨10, -10, 10⟩, ⟨10, 10, 10⟩)) ⟨0, 0, 0⟩ = true := by
    norm_num [hitTest, edgeCenter, Vec3.dot, rayDirRaw, Vec3.add_def, Vec3.smul_def]
  have h2 : hitTest (edgeCenter (⟨-10, -10, -10⟩, ⟨-10, 10, -10⟩)) ⟨0, 0, 0⟩ = false := by
    norm_num [hitTest, edgeCenter, Vec3.dot, rayDirRaw, Vec3.add_def, Vec3.smul_def]
  unfold classifyCenter wireEdges
  rw [List.countP_cons, List.countP_cons, List.countP_nil]
  rw [h1, h2]
  rfl

/-- The wire run's final grid keeps the single-voxel shape. -/
lemma runGrid_wire_grid_size (scene : Scene) (hvs : scene.props.voxel_size = 20) :
    (runGrid scene objWire).grid_size = (1, 1, 1) := by
  unfold runGrid sweep
  rw [hvs, runMinCorner_wire, runMaxCorner_wire, foldl_sweepStep_grid_size]
  exact wire_grid_size_init

/-- The wire run marks its single voxel: the dot-product parity count is
odd at the origin. -/
lemma runGrid_wire_val (scene : Scene) (hvs : scene.props.voxel_size = 20) :
    (runGrid scene objWire).grid (0, 0, 0) = true := by
  unfold runGrid sweep
  rw [hvs, runMinCorner_wire, runMaxCorner_wire, runEdges_wire, wire_grid_size_init]
  rw [show allIndices (1, 1, 1) = [(0, 0, 0)] from rfl]
  rw [List.foldl_cons, List.foldl_nil]
  unfold sweepStep
  rw [show (VoxelGrid.init ⟨-10, -10, -10⟩ ⟨10, 10, 10⟩ 20).grid (0, 0, 0) = false from rfl]
  rw [wire_center, wire_classify]
  simp only [Bool.false_eq_true, if_false, if_true]
  unfold VoxelGrid.mark
  rw [wire_grid_size_init]
  rw [show idxInRange (1, 1, 1) (0, 0, 0) = true from rfl]
  simp [Function.update]

/-- With no edges the classifier counts zero hits everywhere, so the sweep
changes nothing. -/
lemma sweep_nil_edges (minc : Vec3) (vs : ℚ) (g : VoxelGrid) :
    sweep [] minc vs g = g := by
  unfold sweep
  generalize allIndices g.grid_size = l
  induction l generalizing g with
  | nil => rfl
  | cons a l ih =>
    rw [List.foldl_cons]
    have hstep : sweepStep [] minc vs g a = g := by
      unfold sweepStep
      rw [show classifyCenter [] (voxelCenter minc vs a) = false from rfl]
      by_cases hg : g.grid a = true
      · rw [if_pos hg]
      · rw [Bool.not_eq_true] at hg
        rw [hg]
        simp
    rw [hstep]
    exact ih g

/-- A grid whose cells are all false produces no primitives. -/
lemma emit_all_false (props : Props) (minc : Vec3) (g : VoxelGrid)
    (h : ∀ i, g.grid i = false) : emit props minc g = [] := by
  unfold emit
  rw [List.filterMap_eq_nil_iff]
  intro i _
  rw [h i]
  rfl

/-- The sweep result keeps the run's `min_corner`. -/
lemma runGrid_min_corner (scene : Scene) (obj : Obj) :
    (runGrid scene obj).min_corner = runMinCorner obj := by
  unfold runGrid sweep
  exact (foldl_sweepStep_fields _ _ _ _ _).1

/-- The sweep result keeps the run's `voxel_size`. -/
lemma runGrid_voxel_size (scene : Scene) (obj : Obj) :
    (runGrid scene obj).voxel_size = scene.props.voxel_size := by
  unfold runGrid sweep
  exact (foldl_sweepStep_fields _ _ _ _ _).2.2

/-- Every primitive the emission loop creates is a box: the source contains
no sphere or capsule creation call. -/
lemma emit_shape_box (props : Props) (minc : Vec3) (g : VoxelGrid) :
    ∀ p ∈ emit props minc g, p.shape = Shape.box := by
  intro p hp
  unfold emit at hp
  rw [List.mem_filterMap] at hp
  obtain ⟨i, _, hi⟩ := hp
  by_cases h1 : (!g.grid i) = true
  · rw [if_pos h1] at hi
    cases hi
  · rw [if_neg h1] at hi
    by_cases h2 : props.use_boxes = true
    · rw [if_pos h2] at hi
      injection hi with hi
      rw [← hi]
    · rw [if_neg h2] at hi
      cases hi

/-- Shape of the small witness grid `[0,20]³` at voxel size 20: one voxel. -/
lemma witness_grid_size :
    (VoxelGrid.init ⟨0, 0, 0⟩ ⟨20, 20, 20⟩ 20).grid_size = (1, 1, 1) := by
  simp only [VoxelGrid.grid_size, VoxelGrid.dims, VoxelGrid.init, Vec3.sub_def,
    Prod.mk.injEq]
  norm_num [Int.ceil_one]

/-- C2: for every `VoxelGrid` and every index, `is_marked` returns true
whenever any component of the index is negative or at least the
corresponding grid dimension, regardless of the grid's content; for an
in-range index it returns the stored occupancy value of that cell. -/
theorem C2_is_marked_boundary (g : VoxelGrid) (i : Idx) :
    ((i.1 < 0 ∨ g.grid_size.1 ≤ i.1 ∨ i.2.1 < 0 ∨ g.grid_size.2.1 ≤ i.2.1 ∨
        i.2.2 < 0 ∨ g.grid_size.2.2 ≤ i.2.2) → g.is_marked i = true) ∧
    ((0 ≤ i.1 ∧ i.1 < g.grid_size.1 ∧ 0 ≤ i.2.1 ∧ i.2.1 < g.grid_size.2.1 ∧
        0 ≤ i.2.2 ∧ i.2.2 < g.grid_size.2.2) → g.is_marked i = g.grid i) := by
  constructor
  · intro h
    unfold VoxelGrid.is_marked
    by_cases hr : idxInRange g.grid_size i = true
    · exfalso
      simp only [idxInRange, Bool.and_eq_true, decide_eq_true_eq] at hr
      rcases h with h | h | h | h | h | h <;> omega
    · rw [if_neg hr]
  · intro h
    unfold VoxelGrid.is_marked
    rw [if_pos ?_]
    simp only [idxInRange, Bool.and_eq_true, decide_eq_true_eq]
    exact ⟨⟨⟨h.1, h.2.1⟩, h.2.2.1, h.2.2.2.1⟩, h.2.2.2.2.1, h.2.2.2.2.2⟩

/-- C2 witness: on a concrete `1×1×1` grid, a query with a negative
component returns true and an in-range query returns the stored cell. -/
theorem C2_witness :
    (VoxelGrid.init ⟨0, 0, 0⟩ ⟨20, 20, 20⟩ 20).is_marked (-1, 0, 0) = true ∧
    (VoxelGrid.init ⟨0, 0, 0⟩ ⟨20, 20, 20⟩ 20).is_marked (0, 0, 0) =
      (VoxelGrid.init ⟨0, 0, 0⟩ ⟨20, 20, 20⟩ 20).grid (0, 0, 0) :=
  ⟨(C2_is_marked_boundary _ _).1 (Or.inl (by norm_num)),
   (C2_is_marked_boundary _ _).2 (by rw [witness_grid_size]; norm_num)⟩

/-- C6: `iter_empty` yields exactly the in-range indices whose occupancy is
false, without duplicates, in strictly increasing row-major order, and —
being a pure function of the grid state — a second call on the unmutated
grid yields the identical sequence. -/
theorem C6_iter_empty_spec (g : VoxelGrid) :
    (∀ i : Idx, i ∈ g.iter_empty ↔
      (idxInRange g.grid_size i = true ∧ g.grid i = false)) ∧
    g.iter_empty.Nodup ∧
    g.iter_empty.Pairwise idxLt ∧
    g.iter_empty = g.iter_empty := by
  refine ⟨fun i => ?_, ?_, ?_, rfl⟩
  · simp [VoxelGrid.iter_empty, List.mem_filter, mem_allIndices, Bool.not_eq_true']
  · exact (nodup_allIndices _).filter _
  · exact List.Pairwise.sublist (List.filter_sublist _) (pairwise_allIndices _)

/-- C6 witness: on a concrete `1×1×1` grid the enumeration contains the
origin cell and is duplicate-free. -/
theorem C6_witness :
    (0, 0, 0) ∈ (VoxelGrid.init ⟨0, 0, 0⟩ ⟨20, 20, 20⟩ 20).iter_empty ∧
    (VoxelGrid.init ⟨0, 0, 0⟩ ⟨20, 20, 20⟩ 20).iter_empty.Nodup :=
  ⟨((C6_iter_empty_spec _).1 (0, 0, 0)).mpr
      ⟨by rw [witness_grid_size]; decide, rfl⟩,
   (C6_iter_empty_spec _).2.1⟩

/-- C10: the in-place classification sweep — which iterates the same grid
it marks, with the generator reading cell values live — produces exactly
the occupancy that independent snapshot classification of every voxel of
the initially all-false grid produces: each voxel's value depends only on
the fixed direction, its own center and the edge data, and every in-range
voxel is decided exactly once (no cell is ever skipped, because a cell can
only become true at its own visit). -/
theorem C10_sweep_refines_snapshot (edges : List MeshEdge) (minc maxc : Vec3)
    (vs : ℚ) :
    (sweep edges minc vs (VoxelGrid.init minc maxc vs)).grid =
      snapshotClassification edges minc vs
        (VoxelGrid.init minc maxc vs).grid_size := by
  funext j
  unfold sweep
  rw [foldl_sweepStep_grid edges minc vs (allIndices _) _ (nodup_allIndices _)
    (fun i _ => rfl) (fun i hi => mem_allIndices.mp hi) j]
  unfold snapshotClassification
  by_cases hj : j ∈ allIndices (VoxelGrid.init minc maxc vs).grid_size
  · rw [if_pos hj, mem_allIndices.mp hj, Bool.true_and]
  · rw [if_neg hj]
    have hfalse : idxInRange (VoxelGrid.init minc maxc vs).grid_size j = false := by
      rw [← Bool.not_eq_true]
      exact fun h => hj (mem_allIndices.mpr h)
    rw [hfalse, Bool.false_and]
    rfl

/-- C8: two runs identical except for the `voxel_resolution` value (any two
values in 4–256) produce identical results — grid, primitives, reports and
all — because `execute` never reads that property. -/
theorem C8_resolution_unused (scene : Scene) (ao : Option Obj) (r1 r2 : ℤ)
    (h1 : 4 ≤ r1) (h2 : r1 ≤ 256) (h3 : 4 ≤ r2) (h4 : r2 ≤ 256) :
    execute (setVoxelResolution r1 scene) ao =
      execute (setVoxelResolution r2 scene) ao := by
  cases ao with
  | none => rfl
  | some obj => rfl

/-- C8 witness: resolutions 4 and 256 give the same concrete run. -/
theorem C8_witness :
    (4 : ℤ) ≤ 4 ∧ (4 : ℤ) ≤ 256 ∧ (256 : ℤ) ≤ 256 ∧
    execute (setVoxelResolution 4 sceneWire) (some objWire) =
      execute (setVoxelResolution 256 sceneWire) (some objWire) :=
  ⟨by norm_num, by norm_num, by norm_num,
   C8_resolution_unused sceneWire (some objWire) 4 256 (by norm_num) (by norm_num)
     (by norm_num) (by norm_num)⟩

/-- C3 counterexample: a mesh-typed object with zero polygons does NOT
abort — the run finishes, creates the collider collection and allocates a
grid, contradicting the claim's "zero polygons ⇒ abort with no side
effects" clause (the source checks only `not obj or obj.type != 'MESH'`,
never the polygon count). -/
theorem C3_counterexample :
    objEmpty.data.polygons = 0 ∧
    (execute sceneWire (some objEmpty)).status = ExecStatus.FINISHED ∧
    (execute sceneWire (some objEmpty)).createdCollection = true ∧
    (execute sceneWire (some objEmpty)).grid.isSome = true := by
  refine ⟨rfl, ?_, ?_, ?_⟩ <;> rw [execute_mesh sceneWire objEmpty rfl] <;> rfl

/-- C3 (amended): if no object is selected or the selected object is not
mesh-typed, `execute` reports the user-facing error and aborts with no
partial side effects: no collection is created, no grid is allocated, and
zero primitives (and zero merged meshes) are created. -/
theorem C3_precondition_abort (scene : Scene) (ao : Option Obj)
    (h : ao = none ∨ ∃ obj, ao = some obj ∧ obj.type ≠ ObjType.MESH) :
    (execute scene ao).status = ExecStatus.CANCELLED ∧
    (execute scene ao).reports = [(ReportLevel.ERROR, "Select a mesh object.")] ∧
    (execute scene ao).createdCollection = false ∧
    (execute scene ao).grid = none ∧
    (execute scene ao).primitives = [] ∧
    (execute scene ao).mergedMeshCount = 0 := by
  have hres : execute scene ao = cancelledResult := by
    rcases h with rfl | ⟨obj, rfl, hobj⟩
    · exact execute_none scene
    · exact execute_not_mesh scene obj hobj
  rw [hres]
  exact ⟨rfl, rfl, rfl, rfl, rfl, rfl⟩

/-- C3 witness: with no active object the run cancels with the error
report and no effects. -/
theorem C3_witness :
    (execute sceneWire none).status = ExecStatus.CANCELLED ∧
    (execute sceneWire none).createdCollection = false ∧
    (execute sceneWire none).grid = none ∧
    (execute sceneWire none).primitives = [] := by
  obtain ⟨h1, _, h3, h4, h5, _⟩ := C3_precondition_abort sceneWire none (Or.inl rfl)
  exact ⟨h1, h3, h4, h5⟩

/-- C5: with `use_boxes` enabled, a finished run's primitive list is
exactly one box per occupied voxel of the final grid, in row-major order:
edge length `voxel_size`, centered at
`min_corner + index*voxel_size + voxel_size/2` per axis (the cube is
created with no rotation, i.e. axis-aligned to world axes), named
`"VCG_Cube_(i, j, k)"` from the grid index — and those names are pairwise
distinct within the run. -/
theorem C5_boxes_per_occupied_voxel (scene : Scene) (obj : Obj)
    (hm : obj.type = ObjType.MESH) (hb : scene.props.use_boxes = true)
    (g : VoxelGrid) (hg : (execute scene (some obj)).grid = some g) :
    (execute scene (some obj)).primitives =
      ((allIndices g.grid_size).filter fun i => g.grid i).map
        (fun i => { shape := Shape.box
                    size := g.voxel_size
                    location := voxelCenter g.min_corner g.voxel_size i
                    name := cubeName i }) ∧
    ((execute scene (some obj)).primitives.map Primitive.name).Nodup := by
  have hg2 : some (runGrid scene obj) = some g := by
    rw [execute_mesh scene obj hm] at hg
    exact hg
  injection hg2 with hg3
  subst hg3
  constructor
  · rw [execute_mesh scene obj hm]
    show emit scene.props (runMinCorner obj) (runGrid scene obj) = _
    rw [emit_eq_map _ _ _ hb, runGrid_min_corner, runGrid_voxel_size]
  · rw [execute_mesh scene obj hm]
    show ((emit scene.props (runMinCorner obj) (runGrid scene obj)).map
      Primitive.name).Nodup
    exact emit_names_nodup _ _ _

/-- C5 witness: the concrete wire run has boxes enabled and its emitted
names are duplicate-free. -/
theorem C5_witness :
    sceneWire.props.use_boxes = true ∧
    ((execute sceneWire (some objWire)).primitives.map Primitive.name).Nodup :=
  ⟨rfl, (C5_boxes_per_occupied_voxel sceneWire objWire rfl rfl
      (runGrid sceneWire objWire)
      (by rw [execute_mesh sceneWire objWire rfl])).2⟩

/-- C7 counterexample: on an empty mesh the run does finish with zero
primitives, but its completion report is the fixed message
`"Voxel primitives placed."` — no report states a count: neither report
message contains the digit `'0'` nor the letter `'z'`/`'Z'`, so none can
read "zero primitives" or "0 primitives" as the claim asserts. -/
theorem C7_counterexample :
    objEmpty.data.polygons = 0 ∧
    (execute sceneWire (some objEmpty)).primitives = [] ∧
    (execute sceneWire (some objEmpty)).reports =
      [(ReportLevel.INFO, "Starting voxel-based primitive fitting..."),
       (ReportLevel.INFO, "Voxel primitives placed.")] ∧
    ∀ r ∈ (execute sceneWire (some objEmpty)).reports,
      '0' ∉ r.2.data ∧ 'z' ∉ r.2.data ∧ 'Z' ∉ r.2.data := by
  have hedges : runEdges objEmpty = [] := rfl
  have hgrid : runGrid sceneWire objEmpty =
      VoxelGrid.init (runMinCorner objEmpty) (runMaxCorner objEmpty)
        sceneWire.props.voxel_size := by
    rw [runGrid, hedges, sweep_nil_edges]
  refine ⟨rfl, ?_, ?_, ?_⟩
  · rw [execute_mesh sceneWire objEmpty rfl]
    show emit sceneWire.props (runMinCorner objEmpty) (runGrid sceneWire objEmpty) = []
    rw [hgrid]
    exact emit_all_false _ _ _ (fun i => rfl)
  · rw [execute_mesh sceneWire objEmpty rfl]
  · rw [execute_mesh sceneWire objEmpty rfl]
    intro r hr
    have hr2 : r ∈ [((ReportLevel.INFO : ReportLevel),
        ("Starting voxel-based primitive fitting..." : String)),
      (ReportLevel.INFO, "Voxel primitives placed.")] := hr
    simp only [List.mem_cons, List.not_mem_nil, or_false] at hr2
    rcases hr2 with rfl | rfl <;> exact ⟨by decide, by decide, by decide⟩

/-- C7 (amended): if the selected object is mesh-typed and its mesh is
empty (zero polygons and zero edges), then every voxel is classified as
outside (the final grid is all false), the run completes with `FINISHED`
and zero primitives created, and the completion report is the fixed,
count-free message pair. -/
theorem C7_empty_mesh_all_outside (scene : Scene) (obj : Obj)
    (hm : obj.type = ObjType.MESH) (hp : obj.data.polygons = 0)
    (he : obj.data.edges = []) :
    (execute scene (some obj)).status = ExecStatus.FINISHED ∧
    (execute scene (some obj)).primitives = [] ∧
    (∀ g, (execute scene (some obj)).grid = some g → ∀ i, g.grid i = false) ∧
    (execute scene (some obj)).reports =
      [(ReportLevel.INFO, "Starting voxel-based primitive fitting..."),
       (ReportLevel.INFO, "Voxel primitives placed.")] := by
  have hedges : runEdges obj = [] := by
    rw [runEdges, he]
    rfl
  have hgrid : runGrid scene obj =
      VoxelGrid.init (runMinCorner obj) (runMaxCorner obj)
        scene.props.voxel_size := by
    rw [runGrid, hedges, sweep_nil_edges]
  rw [execute_mesh scene obj hm]
  refine ⟨rfl, ?_, ?_, rfl⟩
  · show emit scene.props (runMinCorner obj) (runGrid scene obj) = []
    rw [hgrid]
    exact emit_all_false _ _ _ (fun i => rfl)
  · intro g hg i
    have hg2 : some (runGrid scene obj) = some g := hg
    injection hg2 with hg3
    rw [← hg3, hgrid]
    rfl

/-- C7 witness: the concrete empty-mesh run finishes with zero primitives
and an all-false grid. -/
theorem C7_witness :
    objEmpty.data.polygons = 0 ∧
    (execute sceneWire (some objEmpty)).status = ExecStatus.FINISHED ∧
    (execute sceneWire (some objEmpty)).primitives = [] := by
  obtain ⟨h1, h2, _, _⟩ :=
    C7_empty_mesh_all_outside sceneWire objEmpty rfl rfl rfl
  exact ⟨rfl, h1, h2⟩

/-- C9 counterexample: with `use_spheres` on and `use_boxes` off, the wire
run has an occupied voxel (cell `(0,0,0)` of the final grid is true), yet
the primitive list is empty — no sphere is emitted at the occupied voxel's
center, contradicting the claim. -/
theorem C9_counterexample :
    sceneSpheres.props.use_spheres = true ∧
    sceneSpheres.props.use_boxes = false ∧
    ((execute sceneSpheres (some objWire)).grid.map fun g => g.grid (0, 0, 0)) =
      some true ∧
    (execute sceneSpheres (some objWire)).primitives = [] := by
  refine ⟨rfl, rfl, ?_, ?_⟩
  · rw [execute_mesh sceneSpheres objWire rfl]
    show some ((runGrid sceneSpheres objWire).grid (0, 0, 0)) = some true
    exact congrArg some (runGrid_wire_val sceneSpheres rfl)
  · rw [execute_mesh sceneSpheres objWire rfl]
    show emit sceneSpheres.props (runMinCorner objWire)
      (runGrid sceneSpheres objWire) = []
    exact emit_no_boxes _ _ _ rfl

/-- C9 (amended): the `use_spheres` and `use_capsules` flags are accepted
but have no effect whatsoever: the whole run result is unchanged by their
values, and every primitive any run emits is a box — no sphere or capsule
is ever emitted, additively or otherwise. -/
theorem C9_sphere_capsule_flags_inert (scene : Scene) (ao : Option Obj)
    (b1 b2 : Bool) :
    execute (setUseSpheres b1 (setUseCapsules b2 scene)) ao = execute scene ao ∧
    ∀ p ∈ (execute scene ao).primitives, p.shape = Shape.box := by
  constructor
  · cases ao with
    | none => rfl
    | some obj => rfl
  · intro p hp
    match ao with
    | none => cases hp
    | some obj =>
      by_cases hm : obj.type = ObjType.MESH
      · rw [execute_mesh scene obj hm] at hp
        exact emit_shape_box scene.props (runMinCorner obj)
          (runGrid scene obj) p hp
      · rw [execute_not_mesh scene obj hm] at hp
        cases hp

/-- C9 witness: toggling both flags leaves the concrete wire run
unchanged, and its primitives are all boxes. -/
theorem C9_witness :
    execute (setUseSpheres false (setUseCapsules true sceneWire)) (some objWire) =
      execute sceneWire (some objWire) ∧
    ∀ p ∈ (execute sceneWire (some objWire)).primitives, p.shape = Shape.box :=
  ⟨(C9_sphere_capsule_flags_inert sceneWire (some objWire) false true).1,
   (C9_sphere_capsule_flags_inert sceneWire (some objWire) false true).2⟩

/-- C1 (code evaluated at the failing input): the wireframe mesh has zero
polygons, so its surface is empty and a ray from any voxel center crosses
it zero times (an even count) — moreover the open ray from the single
voxel's center in the fixed direction `(1, 0.1, 0.3)` (any positive
multiple of `rayDirRaw`, which parametrises exactly the normalized-ray
points) meets neither mesh edge.  The claim therefore requires the voxel
to stay unmarked, yet the code marks it: its per-edge quantity
`edge_center · (direction - center)` is positive for exactly one of the
two edges, an odd count. -/
theorem C1_classifier_marks_without_crossing :
    objWire.data.polygons = 0 ∧
    ((execute sceneWire (some objWire)).grid.map fun g => g.grid (0, 0, 0)) =
      some true ∧
    (∀ t : ℚ, 0 < t → ∀ μ : ℚ, 0 ≤ μ → μ ≤ 1 → ∀ e ∈ wireEdges,
      e.1 + (e.2 - e.1) * μ ≠
        voxelCenter ⟨-10, -10, -10⟩ 20 (0, 0, 0) + rayDirRaw * t) := by
  refine ⟨rfl, ?_, ?_⟩
  · rw [execute_mesh sceneWire objWire rfl]
    show some ((runGrid sceneWire objWire).grid (0, 0, 0)) = some true
    exact congrArg some (runGrid_wire_val sceneWire rfl)
  · intro t ht μ hμ0 hμ1 e he
    rw [wire_center]
    simp only [wireEdges, List.mem_cons, List.not_mem_nil, or_false] at he
    rcases he with rfl | rfl
    · intro hEq
      simp only [Vec3.add_def, Vec3.sub_def, Vec3.smul_def, rayDirRaw,
        Vec3.mk.injEq] at hEq
      obtain ⟨h1, _, h3⟩ := hEq
      ring_nf at h1 h3
      linarith
    · intro hEq
      simp only [Vec3.add_def, Vec3.sub_def, Vec3.smul_def, rayDirRaw,
        Vec3.mk.injEq] at hEq
      obtain ⟨h1, _, _⟩ := hEq
      ring_nf at h1
      linarith

/-- C4 (code evaluated at the failing input): with `merge_output` enabled
and an occupied voxel present, the run makes zero merged-mesh creation
requests and still emits its per-voxel cube as an independent primitive —
`merge_output` is never read by `execute`. -/
theorem C4_merge_output_ignored :
    sceneMerge.props.merge_output = true ∧
    (execute sceneMerge (some objWire)).mergedMeshCount = 0 ∧
    (execute sceneMerge (some objWire)).primitives.length = 1 := by
  refine ⟨rfl, ?_, ?_⟩
  · rw [execute_mesh sceneMerge objWire rfl]
  · rw [execute_mesh sceneMerge objWire rfl]
    show (emit sceneMerge.props (runMinCorner objWire)
      (runGrid sceneMerge objWire)).length = 1
    rw [emit_eq_map _ _ _ rfl, List.length_map,
      runGrid_wire_grid_size sceneMerge rfl]
    rw [show allIndices (1, 1, 1) = [(0, 0, 0)] from rfl, List.filter_cons,
      List.filter_nil]
    simp only [runGrid_wire_val sceneMerge rfl, eq_self_iff_true, if_true]
    rfl
